import Mathlib

/-!
Verification development for the torrent-search-engine repository.

The file shallowly embeds the parts of the code that the properties below
are about:

* `torrentsearchengine/searchengine.py` — the orchestrator
  (`TorrentSearchEngine.search`, `_multithreaded_search`, `_filter`, `_sort`);
* `torrentsearchengine/torrentprovider.py` — the provider search protocol
  (`TorrentProvider.search`, `_format_search_path`, `_get_category_path`,
  `fetch_details_data`);
* `torrentsearchengine/providermanager.py` — the source registry
  (`get_all`, `_remove`, `_disable`, `_enable`).

Machine-level conventions: Python ints are `Int`; wall-clock readings
are `Int` multiples of 0.01 s — the smallest time constant in the code —
so the literal `0.01` is `1`; Python `None` is `Option.none`; raised
exceptions are `Except` errors.  Network fetches and HTML scraping live outside the embedded
modules; a search run therefore takes the pages the network would return
as an explicit environment argument.
-/

/-- Exception taxonomy of the package.  The module `exceptions.py` is not
part of the embedded sources; the hierarchy is modelled from the spec's
error-handling design: `FormatError`, `NotSupportedError` (unsupported
category), `RequestError`, `Timeout` and `ParseError` are the search-time
provider errors (subclasses of `TorrentProviderError`), while `typeError`
and `unboundLocalError` stand for the Python builtin exceptions of the
same names, which are not part of the package hierarchy. -/
inductive PyError where
  | parseError (msg : String)
  | requestError (msg : String)
  | timeoutError (msg : String)
  | notSupportedError (msg : String)
  | formatError (msg : String)
  | typeError (msg : String)
  | unboundLocalError (msg : String)
deriving DecidableEq, Repr

/-- Whether an exception is caught by `except TorrentProviderError`
(searchengine.py line 121).  Modelled from the spec: the five search-time
provider errors form the `TorrentProviderError` hierarchy; Python builtin
exceptions do not. -/
def PyError.isTorrentProviderError : PyError → Bool
  | .parseError _ => true
  | .requestError _ => true
  | .timeoutError _ => true
  | .notSupportedError _ => true
  | .formatError _ => true
  | .typeError _ => false
  | .unboundLocalError _ => false

/-- Modelled from the spec: a `Torrent` record (torrent.py is not among the
embedded sources).  The fields used by the embedded code are its title,
its seed count (a Python int) and its optional detail-page url. -/
structure Torrent where
  title : String
  seeds : Int
  infoUrl : Option String := none
deriving DecidableEq, Repr

/-- Raw field map scraped for one list item, before `Torrent(**props)`
is attempted (torrentprovider.py lines 95-103). -/
structure TorrentData where
  title : Option String := none
  magnet : Option String := none
  infoUrl : Option String := none
  seeds : Int := 0
deriving DecidableEq, Repr

/-- Modelled from the spec: `Torrent` construction (torrent.py is not among
the embedded sources) requires a non-empty title and at least one of
magnet link / detail-page url; otherwise it raises `ValueError`, which the
pagination loop turns into skipping the item. -/
def constructTorrent (d : TorrentData) : Option Torrent :=
  match d.title with
  | none => none
  | some t =>
    if t = "" then none
    else if d.magnet = none ∧ (d.infoUrl = none ∨ d.infoUrl = some "") then none
    else some ⟨t, d.seeds, d.infoUrl⟩

/-! ## `TorrentSearchEngine._filter` (searchengine.py lines 142-156)

The Python loop keeps an accumulator `filtered`; for each incoming `item`
it scans `filtered` by index, and at every index whose entry has the same
title it marks the item a duplicate and replaces the entry when the item
has strictly more seeds; items that matched no entry are appended.  The
index scan touches each position independently, so one pass is expressed
as a pointwise `map` guarded by the duplicate test. -/

def filterStep (fil : List Torrent) (item : Torrent) : List Torrent :=
  if item.title ∈ fil.map Torrent.title then
    fil.map (fun t => if t.title = item.title ∧ t.seeds < item.seeds then item else t)
  else
    fil ++ [item]

def filterTorrents (items : List Torrent) : List Torrent :=
  items.foldl filterStep []

/-- Titles in order of first occurrence: the shape `_filter` gives to the
title list of its output. -/
def dedupFirst (l : List String) : List String :=
  l.foldl (fun acc x => if x ∈ acc then acc else acc ++ [x]) []

/-! ## `TorrentSearchEngine._sort` (searchengine.py lines 158-159)

The code is `sorted(items, key=lambda item: item.seeds, reverse=True)`:
Python's `sorted` is a stable sort, and `reverse=True` orders by
descending key while still keeping equal-key elements in input order.  A
stable sort's output is uniquely determined by that contract, realized
here as the stable insertion sort: each element is inserted after every
already-placed element with at least its seed count. -/

def insertDesc (a : Torrent) : List Torrent → List Torrent
  | [] => [a]
  | b :: l => if b.seeds ≤ a.seeds then a :: b :: l else b :: insertDesc a l

def sortTorrents : List Torrent → List Torrent
  | [] => []
  | a :: l => insertDesc a (sortTorrents l)

/-! ### Lemmas about `_filter` -/

theorem filterStep_map_title (fil : List Torrent) (item : Torrent) :
    (filterStep fil item).map Torrent.title =
      if item.title ∈ fil.map Torrent.title
      then fil.map Torrent.title
      else fil.map Torrent.title ++ [item.title] := by
  unfold filterStep
  by_cases h : item.title ∈ fil.map Torrent.title
  · simp only [h, if_true, List.map_map]
    apply List.map_congr_left
    intro t _
    by_cases ht : t.title = item.title ∧ t.seeds < item.seeds
    · simp [Function.comp, ht, ht.1]
    · simp [Function.comp, ht]
  · simp [h]

theorem filterTorrents_map_title_general (rest : List Torrent) (fil : List Torrent) :
    (rest.foldl filterStep fil).map Torrent.title =
      (rest.map Torrent.title).foldl
        (fun acc x => if x ∈ acc then acc else acc ++ [x])
        (fil.map Torrent.title) := by
  induction rest generalizing fil with
  | nil => rfl
  | cons item rest ih =>
    simp only [List.foldl_cons, List.map_cons]
    rw [ih, filterStep_map_title]

/-- The titles of `_filter`'s output are the input titles with duplicates
removed, keeping the position of each title's first occurrence. -/
theorem filterTorrents_map_title (items : List Torrent) :
    (filterTorrents items).map Torrent.title = dedupFirst (items.map Torrent.title) := by
  have h := filterTorrents_map_title_general items []
  simpa [filterTorrents, dedupFirst] using h

/-- Invariant carried through `_filter`'s outer loop: every accumulator
entry comes from the processed prefix and dominates (by seeds) every
processed record with its title, and every processed title already
occurs in the accumulator. -/
def FilterInv (processed fil : List Torrent) : Prop :=
  (∀ x ∈ processed, x.title ∈ fil.map Torrent.title) ∧
  (∀ r ∈ fil, r ∈ processed ∧ ∀ x ∈ processed, x.title = r.title → x.seeds ≤ r.seeds)

theorem filterStep_inv (processed fil : List Torrent) (item : Torrent)
    (h : FilterInv processed fil) :
    FilterInv (processed ++ [item]) (filterStep fil item) := by
  obtain ⟨h1, h2⟩ := h
  have hmap := filterStep_map_title fil item
  by_cases hdup : item.title ∈ fil.map Torrent.title
  · rw [if_pos hdup] at hmap
    constructor
    · intro x hx
      rw [hmap]
      rcases List.mem_append.mp hx with hx | hx
      · exact h1 x hx
      · rw [List.mem_singleton.mp hx]
        exact hdup
    · intro r hr
      rw [filterStep, if_pos hdup] at hr
      obtain ⟨t, ht, hteq⟩ := List.mem_map.mp hr
      by_cases hc : t.title = item.title ∧ t.seeds < item.seeds
      · -- the entry at this position was replaced by the incoming item
        rw [if_pos hc] at hteq
        subst hteq
        refine ⟨List.mem_append.mpr (Or.inr (List.mem_singleton.mpr rfl)), ?_⟩
        intro x hx hxt
        rcases List.mem_append.mp hx with hx | hx
        · have hxle := (h2 t ht).2 x hx (by rw [hxt, hc.1])
          exact le_trans hxle (le_of_lt hc.2)
        · rw [List.mem_singleton.mp hx]
      · rw [if_neg hc] at hteq
        subst hteq
        refine ⟨List.mem_append.mpr (Or.inl (h2 t ht).1), ?_⟩
        intro x hx hxt
        rcases List.mem_append.mp hx with hx | hx
        · exact (h2 t ht).2 x hx hxt
        · -- the incoming item matched this entry but had no more seeds
          rw [List.mem_singleton.mp hx] at hxt ⊢
          by_cases hteq2 : t.title = item.title
          · exact le_of_not_lt (fun hlt => hc ⟨hteq2, hlt⟩)
          · exact absurd hxt.symm hteq2
  · rw [if_neg hdup] at hmap
    constructor
    · intro x hx
      rw [hmap, List.mem_append]
      rcases List.mem_append.mp hx with hx | hx
      · exact Or.inl (h1 x hx)
      · rw [List.mem_singleton.mp hx]
        exact Or.inr (by simp)
    · intro r hr
      rw [filterStep, if_neg hdup] at hr
      rcases List.mem_append.mp hr with hr | hr
      · refine ⟨List.mem_append.mpr (Or.inl (h2 r hr).1), ?_⟩
        intro x hx hxt
        rcases List.mem_append.mp hx with hx | hx
        · exact (h2 r hr).2 x hx hxt
        · rw [List.mem_singleton.mp hx] at hxt
          exact absurd (hxt ▸ List.mem_map_of_mem Torrent.title hr) hdup
      · rw [List.mem_singleton.mp hr]
        refine ⟨List.mem_append.mpr (Or.inr (List.mem_singleton.mpr rfl)), ?_⟩
        intro x hx hxt
        rcases List.mem_append.mp hx with hx | hx
        · exact absurd (hxt ▸ h1 x hx) hdup
        · rw [List.mem_singleton.mp hx]

theorem filterTorrents_inv_general (rest processed fil : List Torrent)
    (h : FilterInv processed fil) :
    FilterInv (processed ++ rest) (rest.foldl filterStep fil) := by
  induction rest generalizing processed fil with
  | nil => simpa using h
  | cons item rest ih =>
    have := ih (processed ++ [item]) (filterStep fil item) (filterStep_inv _ _ _ h)
    simpa using this

theorem filterTorrents_inv (items : List Torrent) :
    FilterInv items (filterTorrents items) := by
  have h := filterTorrents_inv_general items [] [] ⟨by simp, by simp⟩
  simpa [filterTorrents] using h

/-! ### Lemmas about `_sort` -/

theorem insertDesc_perm (a : Torrent) (l : List Torrent) :
    List.Perm (insertDesc a l) (a :: l) := by
  induction l with
  | nil => rfl
  | cons b l ih =>
    rw [insertDesc]
    by_cases h : b.seeds ≤ a.seeds
    · rw [if_pos h]
    · rw [if_neg h]
      exact (ih.cons b).trans (List.Perm.swap a b l)

theorem sortTorrents_perm (items : List Torrent) :
    List.Perm (sortTorrents items) items := by
  induction items with
  | nil => rfl
  | cons a l ih =>
    exact (insertDesc_perm a (sortTorrents l)).trans (ih.cons a)

theorem mem_insertDesc {x a : Torrent} {l : List Torrent} :
    x ∈ insertDesc a l ↔ x = a ∨ x ∈ l :=
  ((insertDesc_perm a l).mem_iff).trans List.mem_cons

theorem insertDesc_pairwise (a : Torrent) (l : List Torrent)
    (h : l.Pairwise (fun s t => t.seeds ≤ s.seeds)) :
    (insertDesc a l).Pairwise (fun s t => t.seeds ≤ s.seeds) := by
  induction l with
  | nil => simp [insertDesc]
  | cons b l ih =>
    rw [insertDesc]
    rw [List.pairwise_cons] at h
    by_cases hb : b.seeds ≤ a.seeds
    · rw [if_pos hb]
      refine List.Pairwise.cons ?_ (List.Pairwise.cons h.1 h.2)
      intro t ht
      rcases List.mem_cons.mp ht with rfl | ht
      · exact hb
      · exact le_trans (h.1 t ht) hb
    · rw [if_neg hb]
      refine List.Pairwise.cons ?_ (ih h.2)
      intro t ht
      rcases mem_insertDesc.mp ht with rfl | ht
      · exact le_of_not_le hb
      · exact h.1 t ht

theorem sortTorrents_pairwise (items : List Torrent) :
    (sortTorrents items).Pairwise (fun s t => t.seeds ≤ s.seeds) := by
  induction items with
  | nil => exact List.Pairwise.nil
  | cons a l ih => exact insertDesc_pairwise a (sortTorrents l) ih

theorem filter_insertDesc (a : Torrent) (l : List Torrent) (s : Int) :
    (insertDesc a l).filter (fun t => t.seeds = s) =
      if a.seeds = s
      then a :: l.filter (fun t => t.seeds = s)
      else l.filter (fun t => t.seeds = s) := by
  induction l with
  | nil =>
    by_cases h : a.seeds = s
    · simp [insertDesc, h]
    · simp [insertDesc, h]
  | cons b l ih =>
    rw [insertDesc]
    by_cases hb : b.seeds ≤ a.seeds
    · rw [if_pos hb]
      by_cases h : a.seeds = s
      · simp [List.filter_cons, h]
      · simp [List.filter_cons, h]
    · rw [if_neg hb]
      have hbs : ¬ b.seeds = s ∨ ¬ a.seeds = s := by
        by_cases h : a.seeds = s
        · left
          intro hb2
          exact hb (le_of_eq (hb2.trans h.symm))
        · right
          exact h
      by_cases h : a.seeds = s
      · have hbne : ¬ b.seeds = s := hbs.resolve_right (fun hc => hc h)
        simp [List.filter_cons, hbne, ih, h]
      · by_cases hbeq : b.seeds = s
        · simp [List.filter_cons, hbeq, ih, h]
        · simp [List.filter_cons, hbeq, ih, h]

/-- Stability of `_sort`: the records carrying any fixed seed count keep
their relative input order. -/
theorem sortTorrents_stable (items : List Torrent) (s : Int) :
    (sortTorrents items).filter (fun t => t.seeds = s) =
      items.filter (fun t => t.seeds = s) := by
  induction items with
  | nil => rfl
  | cons a l ih =>
    rw [sortTorrents, filter_insertDesc]
    by_cases h : a.seeds = s
    · simp [List.filter_cons, h, ih]
    · simp [List.filter_cons, h, ih]

/-- C3: de-duplication keys on exact title equality; each duplicate group
keeps exactly one record — one of the input records of that group, with
the group's maximal seed count — at the position of the title's first
occurrence, and distinct titles keep their relative order; in particular
duplicate titles with seeds 5 and 9 keep exactly the seed-9 record. -/
theorem claimC3 :
    (∀ items : List Torrent,
      ((filterTorrents items).map Torrent.title = dedupFirst (items.map Torrent.title)) ∧
      ∀ r ∈ filterTorrents items, r ∈ items ∧
        ∀ x ∈ items, x.title = r.title → x.seeds ≤ r.seeds) ∧
    filterTorrents [⟨"A", 5, none⟩, ⟨"A", 9, none⟩] = [⟨"A", 9, none⟩] := by
  refine ⟨fun items => ⟨filterTorrents_map_title items, ?_⟩, by decide⟩
  intro r hr
  exact (filterTorrents_inv items).2 r hr

/-- Witness for C3 at the concrete duplicate pair of the claim. -/
theorem claimC3_witness :
    (⟨"A", 9, none⟩ : Torrent) ∈ [(⟨"A", 5, none⟩ : Torrent), ⟨"A", 9, none⟩] ∧
    (⟨"A", 5, none⟩ : Torrent).seeds ≤ (⟨"A", 9, none⟩ : Torrent).seeds := by
  have h := (claimC3.1 [⟨"A", 5, none⟩, ⟨"A", 9, none⟩]).2 ⟨"A", 9, none⟩ (by decide)
  exact ⟨h.1, h.2 ⟨"A", 5, none⟩ (by decide) rfl⟩

/-- C4: ranking returns a permutation of its input, sorted by seed count
in descending order, and stably so — records with equal seed counts keep
their relative input order; in particular seeds `[3, 9, 1, 9]` come out
as `9, 9, 3, 1` with the two 9-seed records in input order. -/
theorem claimC4 :
    (∀ items : List Torrent,
      List.Perm (sortTorrents items) items ∧
      (sortTorrents items).Pairwise (fun s t => t.seeds ≤ s.seeds) ∧
      ∀ s : Int, (sortTorrents items).filter (fun t => t.seeds = s) =
        items.filter (fun t => t.seeds = s)) ∧
    sortTorrents [⟨"r3", 3, none⟩, ⟨"r9a", 9, none⟩, ⟨"r1", 1, none⟩, ⟨"r9b", 9, none⟩] =
      [⟨"r9a", 9, none⟩, ⟨"r9b", 9, none⟩, ⟨"r3", 3, none⟩, ⟨"r1", 1, none⟩] :=
  ⟨fun items => ⟨sortTorrents_perm items, sortTorrents_pairwise items,
    fun s => sortTorrents_stable items s⟩, by decide⟩

/-! ## The source registry (providermanager.py)

`TorrentProviderManager.providers` is a dict from provider name to
provider object; a Python dict iterates in insertion order with unique
keys, embedded as an association list.  Only the name and the mutable
`enabled` flag of a provider matter to the embedded operations. -/

structure Provider where
  name : String
  enabled : Bool
deriving DecidableEq, Repr

def Registry := List (String × Provider)

instance : DecidableEq Registry := inferInstanceAs (DecidableEq (List (String × Provider)))

/-- Embeds `get_all` (providermanager.py lines 55-58): all providers,
filtered by the enabled flag when one is requested. -/
def getAll (reg : Registry) (enabled : Option Bool) : List Provider :=
  (reg.map Prod.snd).filter (fun p => enabled = none ∨ enabled = some p.enabled)

/-- Embeds `_remove` (providermanager.py lines 105-110) applied to a
name: `del` of the key when present, no effect otherwise.  Keys are
unique, so deleting the key is removing every pair carrying it. -/
def removeProviderNamed (reg : Registry) (name : String) : Registry :=
  if reg.any (fun e => e.1 = name) then
    reg.filter (fun e => ¬ e.1 = name)
  else
    reg

/-- Embeds `_disable` (providermanager.py lines 112-116) applied to a
name: look the name up; when found, clear the provider's enabled flag in
place; a missing name does nothing. -/
def disableProviderNamed (reg : Registry) (name : String) : Registry :=
  match reg.lookup name with
  | none => reg
  | some _ =>
      reg.map (fun e => if e.1 = name then (e.1, { e.2 with enabled := false }) else e)

/-- Embeds `_enable` (providermanager.py lines 118-122) applied to a
name, symmetrically to `_disable`. -/
def enableProviderNamed (reg : Registry) (name : String) : Registry :=
  match reg.lookup name with
  | none => reg
  | some _ =>
      reg.map (fun e => if e.1 = name then (e.1, { e.2 with enabled := true }) else e)

/-! ## The orchestrator (searchengine.py)

A provider task's interaction with its provider generator is summed up by
the records the generator yields, in order, and the exception (if any) it
raises after them; network and scraping happen inside the generator, so
this pair is the task environment.  Wall-clock readings differ per task;
the environment also supplies each task's elapsed time at dispatch. -/

structure ProviderOutcome where
  yielded : List Torrent
  raised : Option PyError
deriving DecidableEq, Repr

/-- Embeds `q.put_nowait` iterated over the yielded records
(searchengine.py lines 119-120): a put succeeds while the queue holds
fewer than `cap` items (`queue.Queue(maxsize)` is unbounded when
`maxsize ≤ 0`); a full queue raises `queue.Full`, which the task catches
around the whole loop (line 124), abandoning the rest of the iteration.
Returns the queue and whether `queue.Full` was raised. -/
def putAllNowait (cap : Int) : List Torrent → List Torrent → List Torrent × Bool
  | q, [] => (q, false)
  | q, r :: rs =>
    if cap ≤ 0 ∨ (q.length : Int) < cap then putAllNowait cap (q ++ [r]) rs
    else (q, true)

/-- Embeds the task body of `_multithreaded_search` (searchengine.py
lines 108-125): recompute the remaining budget from the elapsed time at
dispatch and contribute nothing when it is at most 0.01; otherwise drain
the provider generator into the queue, catching `queue.Full` and
`TorrentProviderError`; any other exception escapes the task.  Returns
the queue after the task and the escaped exception, if any. -/
def searchTask (cap : Int) (timeout : Int) (elapsed : Int) (out : ProviderOutcome)
    (q : List Torrent) : List Torrent × Option PyError :=
  if timeout - elapsed ≤ 1 then (q, none)
  else
    match putAllNowait cap q out.yielded with
    | (q2, true) => (q2, none)
    | (q2, false) =>
      match out.raised with
      | none => (q2, none)
      | some e => if e.isTorrentProviderError then (q2, none) else (q2, some e)

/-- Runs every task over the shared queue, keeping the escaped exceptions
in task order.  The worker pool interleaves the tasks' puts arbitrarily;
the queue-capacity bound and the catch behaviour are the same under every
interleaving, and the model fixes the dispatch order.  `executor.map`
(line 133) re-raises the first escaped exception when its results are
iterated, after the pool has run every task. -/
def runTasks (cap : Int) (timeout : Int) :
    List (Int × ProviderOutcome) → List Torrent → List Torrent × List PyError
  | [], q => (q, [])
  | (elapsed, out) :: jobs, q =>
    match searchTask cap timeout elapsed out q with
    | (q2, none) => runTasks cap timeout jobs q2
    | (q2, some e) =>
      match runTasks cap timeout jobs q2 with
      | (q3, errs) => (q3, e :: errs)

/-- Result of one `TorrentSearchEngine.search` call, with the resource
facts the spec talks about made observable. -/
structure EngineResult where
  poolCreated : Bool
  tasksDispatched : Nat
  result : Except PyError (List Torrent)
deriving Repr

/-- Embeds `TorrentSearchEngine.search` plus `_multithreaded_search`
(searchengine.py lines 24-52 and 105-138): an empty query or an empty
enabled set returns `[]` before any pool exists; otherwise every enabled
provider runs as a task over a queue bounded by `limit`
(`queue.Queue(limit)`, unbounded when `limit ≤ 0`), the queue is drained
in order, duplicates are dropped and the rest sorted.  The truncation
`torrents[:limit]` at line 50 is commented out in the source and is
accordingly absent here.  `env` gives each provider's elapsed time at
dispatch and generator outcome; the thread count (lines 36-39) does not
affect any observable of this model. -/
def engineSearch (reg : Registry) (query : String) (limit : Int) (timeout : Int)
    (env : String → Int × ProviderOutcome) : EngineResult :=
  if query = "" then ⟨false, 0, .ok []⟩
  else
    let provs := getAll reg (some true)
    if provs.length = 0 then ⟨false, 0, .ok []⟩
    else
      let jobs := provs.map (fun p => env p.name)
      match runTasks limit timeout jobs [] with
      | (q, []) => ⟨true, provs.length, .ok (sortTorrents (filterTorrents q))⟩
      | (_, e :: _) => ⟨true, provs.length, .error e⟩

/-- Embeds the outcome of advancing the generator
`TorrentProvider.search(query, category, limit, timeout)` as the
orchestrator uses it: at torrentprovider.py line 76 the generator body
calls `self._format_search_path(query)`, but `_format_search_path`
(line 193) requires the two arguments `query` and `category`, so the
first advance raises `TypeError` before any fetch or yield. -/
def torrentProviderRunOutcome : ProviderOutcome :=
  ⟨[], some (.typeError
    "_format_search_path() missing 1 required positional argument: category")⟩

/-! ### Lemmas about the queue bound -/

theorem putAllNowait_length (cap : Int) (hcap : 0 < cap) :
    ∀ rs q : List Torrent, (q.length : Int) ≤ cap →
      (((putAllNowait cap q rs).1).length : Int) ≤ cap := by
  intro rs
  induction rs with
  | nil => intro q hq; exact hq
  | cons r rs ih =>
    intro q hq
    rw [putAllNowait]
    by_cases h : cap ≤ 0 ∨ (q.length : Int) < cap
    · rw [if_pos h]
      rcases h with h | h
      · exact absurd hcap (not_lt.mpr h)
      · apply ih
        rw [List.length_append, List.length_singleton]
        push_cast
        omega
    · rw [if_neg h]
      exact hq

theorem searchTask_length (cap : Int) (hcap : 0 < cap) (timeout elapsed : Int)
    (out : ProviderOutcome) (q : List Torrent) (hq : (q.length : Int) ≤ cap) :
    (((searchTask cap timeout elapsed out q).1).length : Int) ≤ cap := by
  rw [searchTask]
  by_cases ht : timeout - elapsed ≤ 1
  · rw [if_pos ht]
    exact hq
  · rw [if_neg ht]
    have hput := putAllNowait_length cap hcap out.yielded q hq
    rcases hp : putAllNowait cap q out.yielded with ⟨q2, full⟩
    rw [hp] at hput
    cases full with
    | true => exact hput
    | false =>
      cases out.raised with
      | none => exact hput
      | some e =>
        by_cases he : e.isTorrentProviderError
        · simp only [he, if_true]
          exact hput
        · simp only [he, if_false]
          exact hput

theorem runTasks_length (cap : Int) (hcap : 0 < cap) (timeout : Int) :
    ∀ (jobs : List (Int × ProviderOutcome)) (q : List Torrent),
      (q.length : Int) ≤ cap → (((runTasks cap timeout jobs q).1).length : Int) ≤ cap := by
  intro jobs
  induction jobs with
  | nil => intro q hq; exact hq
  | cons job jobs ih =>
    intro q hq
    rw [runTasks]
    have hstep := searchTask_length cap hcap timeout job.1 job.2 q hq
    rcases hs : searchTask cap timeout job.1 job.2 q with ⟨q2, err⟩
    rw [hs] at hstep
    cases err with
    | none => exact ih q2 hstep
    | some e =>
      have hrec := ih q2 hstep
      rcases hr : runTasks cap timeout jobs q2 with ⟨q3, errs⟩
      rw [hr] at hrec
      simp only [hr]
      exact hrec

theorem filterStep_length (fil : List Torrent) (item : Torrent) :
    (filterStep fil item).length ≤ fil.length + 1 := by
  rw [filterStep]
  by_cases h : item.title ∈ fil.map Torrent.title
  · rw [if_pos h, List.length_map]
    omega
  · rw [if_neg h, List.length_append, List.length_singleton]

theorem filterTorrents_length_general :
    ∀ (rest fil : List Torrent), (rest.foldl filterStep fil).length ≤ fil.length + rest.length := by
  intro rest
  induction rest with
  | nil => intro fil; simp
  | cons item rest ih =>
    intro fil
    rw [List.foldl_cons]
    have h1 := ih (filterStep fil item)
    have h2 := filterStep_length fil item
    calc ((rest.foldl filterStep (filterStep fil item)).length)
        ≤ (filterStep fil item).length + rest.length := h1
      _ ≤ fil.length + 1 + rest.length := by omega
      _ = fil.length + (item :: rest).length := by simp; omega

theorem filterTorrents_length (items : List Torrent) :
    (filterTorrents items).length ≤ items.length := by
  have h := filterTorrents_length_general items []
  simpa [filterTorrents] using h

theorem sortTorrents_length (items : List Torrent) :
    (sortTorrents items).length = items.length :=
  (sortTorrents_perm items).length_eq

/-! ### Concrete inputs used by the closed theorems and witnesses -/

def wReg : Registry :=
  [("alpha", ⟨"alpha", true⟩), ("beta", ⟨"beta", true⟩)]

def wEnvShared : String → Int × ProviderOutcome := fun n =>
  if n = "alpha" then (0, ⟨[⟨"T1", 4, none⟩], none⟩)
  else (0, ⟨[⟨"T2", 7, none⟩], none⟩)

def wEnvTypeErr : String → Int × ProviderOutcome :=
  fun _ => (0, torrentProviderRunOutcome)

def wEnvCaught : String → Int × ProviderOutcome :=
  fun _ => (0, ⟨[⟨"T2", 7, none⟩], some (.requestError "connection refused")⟩)

/-- C5: whenever a call with a positive limit returns a list, that list
holds at most `limit` records, however many records the enabled providers
collectively produce: the sink `queue.Queue(limit)` is the bound, since
the final truncation (searchengine.py line 50) is commented out and
`_filter` and `_sort` never grow the collection. -/
theorem claimC5 (reg : Registry) (query : String) (limit : Int) (timeout : Int)
    (env : String → Int × ProviderOutcome) (l : List Torrent)
    (h1 : 0 < limit)
    (h2 : (engineSearch reg query limit timeout env).result = .ok l) :
    (l.length : Int) ≤ limit := by
  unfold engineSearch at h2
  by_cases hq : query = ""
  · rw [if_pos hq] at h2
    have hl : l = [] := ((Except.ok.injEq _ _).mp h2).symm
    rw [hl]
    simp only [List.length_nil, Nat.cast_zero]
    omega
  · rw [if_neg hq] at h2
    simp only at h2
    by_cases hp : (getAll reg (some true)).length = 0
    · rw [if_pos hp] at h2
      have hl : l = [] := ((Except.ok.injEq _ _).mp h2).symm
      rw [hl]
      simp only [List.length_nil, Nat.cast_zero]
      omega
    · rw [if_neg hp] at h2
      have hbound := runTasks_length limit h1 timeout
        ((getAll reg (some true)).map (fun p => env p.name)) []
        (by simp only [List.length_nil, Nat.cast_zero]; exact le_of_lt h1)
      rcases hr : runTasks limit timeout
          ((getAll reg (some true)).map (fun p => env p.name)) [] with ⟨q, errs⟩
      rw [hr] at h2 hbound
      cases errs with
      | nil =>
        simp only at h2
        have hl : l = sortTorrents (filterTorrents q) :=
          ((Except.ok.injEq _ _).mp h2).symm
        rw [hl, sortTorrents_length]
        calc ((filterTorrents q).length : Int)
            ≤ (q.length : Int) := by exact_mod_cast filterTorrents_length q
          _ ≤ limit := hbound
      | cons e rest =>
        exact absurd h2 (by simp)

/-- Witness for C5: limit 1 with two providers that together yield two
records; the returned list holds exactly one. -/
theorem claimC5_witness :
    (0 : Int) < 1 ∧
    (engineSearch wReg "doom" 1 3000 wEnvShared).result = .ok [⟨"T1", 4, none⟩] ∧
    (([(⟨"T1", 4, none⟩ : Torrent)].length : Int)) ≤ 1 := by
  have h2 : (engineSearch wReg "doom" 1 3000 wEnvShared).result = .ok [⟨"T1", 4, none⟩] := by
    rfl
  exact ⟨by norm_num, h2, claimC5 wReg "doom" 1 3000 wEnvShared _ (by norm_num) h2⟩

/-- C8: an empty query, or no enabled provider, short-circuits: the empty
list comes back with no thread pool created and no task dispatched. -/
theorem claimC8 (reg : Registry) (query : String) (limit : Int) (timeout : Int)
    (env : String → Int × ProviderOutcome)
    (h : query = "" ∨ getAll reg (some true) = []) :
    engineSearch reg query limit timeout env = ⟨false, 0, .ok []⟩ := by
  rcases h with h | h
  · unfold engineSearch
    rw [if_pos h]
  · unfold engineSearch
    by_cases hq : query = ""
    · rw [if_pos hq]
    · rw [if_neg hq]
      simp [h]

/-- Witness for C8 at an empty query over a non-empty registry. -/
theorem claimC8_witness :
    engineSearch wReg "" 5 3000 wEnvShared = ⟨false, 0, .ok []⟩ :=
  claimC8 wReg "" 5 3000 wEnvShared (Or.inl rfl)

/-- C10: removing, disabling or enabling a name that no provider carries
raises nothing and leaves the registry — keys, providers and enabled
flags — exactly as it was. -/
theorem claimC10 (reg : Registry) (name : String)
    (h : name ∉ reg.map Prod.fst) :
    removeProviderNamed reg name = reg ∧
    disableProviderNamed reg name = reg ∧
    enableProviderNamed reg name = reg := by
  have hlookup : reg.lookup name = none := by
    induction reg with
    | nil => rfl
    | cons e t ih =>
      rw [List.map_cons, List.mem_cons] at h
      push_neg at h
      rw [List.lookup_cons]
      have hne : (name == e.1) = false := by
        simp [h.1]
      rw [hne]
      exact ih h.2
  refine ⟨?_, ?_, ?_⟩
  · rw [removeProviderNamed]
    have hany : reg.any (fun e => decide (e.1 = name)) = false := by
      rw [List.any_eq_false]
      intro e he
      simp only [decide_eq_true_eq]
      intro hc
      exact h (hc ▸ List.mem_map_of_mem Prod.fst he)
    simp [hany]
  · rw [disableProviderNamed, hlookup]
  · rw [enableProviderNamed, hlookup]

/-- Witness for C10 at a name absent from the demo registry. -/
theorem claimC10_witness :
    removeProviderNamed wReg "gamma" = wReg ∧
    disableProviderNamed wReg "gamma" = wReg ∧
    enableProviderNamed wReg "gamma" = wReg :=
  claimC10 wReg "gamma" (by decide)

/-- C1 (the code contradicts it): the task boundary catches only
`TorrentProviderError` and `queue.Full`, and that does absorb the five
documented provider failures — with both providers failing with a
`RequestError` after one yield each, the search returns normally with the
surviving records (second conjunct).  But an actual provider search run
raises `TypeError` at once (torrentprovider.py line 76 calls
`_format_search_path` without its required `category` argument), which no
`except` clause matches, so `executor.map` re-raises it and
`TorrentSearchEngine.search` propagates it to its caller (first
conjunct). -/
theorem claimC1 :
    (engineSearch wReg "doom" 0 3000 wEnvTypeErr).result =
      .error (.typeError
        "_format_search_path() missing 1 required positional argument: category") ∧
    (engineSearch wReg "doom" 0 3000 wEnvCaught).result = .ok [⟨"T2", 7, none⟩] := by
  constructor
  · rfl
  · rfl

/-! ## The provider search protocol (torrentprovider.py)

Configuration fields used by `_format_search_path` and
`_get_category_path`.  A Python dict is an insertion-ordered association
list with unique keys; `categories` is falsy when absent or empty, which
the embedding collapses to the empty list (the two behave identically in
the embedded code). -/

structure ProviderCfg where
  name : String
  searchPath : String
  categories : List (String × String)
  whitespaceChar : Option String
deriving Repr

/-- Display of a category value inside an error message, as
`str.format` renders it: `None` for the missing category. -/
def categoryRepr : Option String → String
  | none => "None"
  | some c => c

/-- Embeds `_get_category_path` (torrentprovider.py lines 211-227).  Line
213 reads `category == "all"` — a comparison whose result is discarded,
not an assignment — so a `None` category stays `None`: with no category
map it then fails the `category == "all"` test of line 215 and raises
`NotSupportedError`, and with a map it is looked up (and never found). -/
def getCategoryPath (p : ProviderCfg) (category : Option String) :
    Except PyError (Option String) :=
  if p.categories.isEmpty then
    if category = some "all" then Except.ok none
    else Except.error (.notSupportedError
      (p.name ++ ": category " ++ categoryRepr category ++ " is not supported."))
  else
    match category with
    | some c =>
      match p.categories.lookup c with
      | some frag => Except.ok (some frag)
      | none => Except.error (.notSupportedError
          (p.name ++ ": category " ++ categoryRepr category ++ " is not supported."))
    | none => Except.error (.notSupportedError
        (p.name ++ ": category " ++ categoryRepr category ++ " is not supported."))

/-- Model of `str.format` with named placeholders: substitute `{key}`
from the argument map, failing (Python `KeyError`) on a key the map does
not hold.  Brace-escape syntax is not modelled; every template the
embedded code formats is plain. -/
def pyFormatGo (args : List (String × String)) (acc : String) (key : Option String) :
    List Char → Except Unit String
  | [] =>
    match key with
    | none => .ok acc
    | some _ => .error ()
  | c :: rest =>
    match key with
    | none =>
      if c = '{' then pyFormatGo args acc (some "") rest
      else pyFormatGo args (acc.push c) none rest
    | some k =>
      if c = '}' then
        match args.lookup k with
        | some v => pyFormatGo args (acc ++ v) none rest
        | none => .error ()
      else pyFormatGo args acc (some (k.push c)) rest

def pyFormat (tmpl : String) (args : List (String × String)) : Except Unit String :=
  pyFormatGo args "" none tmpl.data

/-- Python whitespace test for `\s` in `re.sub(r"\s+", ...)`. -/
def isPySpace (c : Char) : Bool :=
  c = ' ' ∨ c = '\t' ∨ c = '\n' ∨ c = '\r' ∨ c = '\x0b' ∨ c = '\x0c'

/-- Embeds `re.sub(r"\s+", w, query)`: every maximal whitespace run
becomes one copy of `w`. -/
def subWhitespaceGo (w : String) (acc : String) (inRun : Bool) :
    List Char → String
  | [] => acc
  | c :: rest =>
    if isPySpace c then
      if inRun then subWhitespaceGo w acc true rest
      else subWhitespaceGo w (acc ++ w) true rest
    else subWhitespaceGo w (acc.push c) false rest

def subWhitespace (w : String) (s : String) : String :=
  subWhitespaceGo w "" false s.data

/-- Embeds `_format_search_path` (torrentprovider.py lines 193-209):
strip and whitespace-normalize the query, resolve the category path, then
run the `try` block of lines 201-208.  When the category path is a
fragment, `category_path.format(query=query)` runs first; a `KeyError`
there is caught and re-raised as `FormatError` (line 208).  Otherwise
line 204 reads the local variable `path` on its own right-hand side
before any assignment to it, so the function raises `UnboundLocalError`
(not caught by `except KeyError`) on every path that reaches it: the
search-path template is never actually formatted. -/
def formatSearchPath (p : ProviderCfg) (query : String) (category : Option String) :
    Except PyError String := do
  let q := query.trim
  let q := match p.whitespaceChar with
    | none => q
    | some w => if w = "" then q else subWhitespace w q
  let categoryPath ← getCategoryPath p category
  match categoryPath with
  | some frag =>
    match pyFormat frag [("query", q)] with
    | .error _ =>
      Except.error (.formatError
        (p.searchPath ++ " with query = " ++ q ++ " and category = "
          ++ categoryRepr category))
    | .ok _ => Except.error (.unboundLocalError "path")
  | none => Except.error (.unboundLocalError "path")

/-! ## The pagination loop of `TorrentProvider.search`

In the source the loop of lines 78-107 is unreachable: line 76 computes
the initial path by `self._format_search_path(query)`, a call that raises
`TypeError` (see `torrentProviderRunOutcome`), and `_format_search_path`
itself never returns (see `formatSearchPath`).  The loop body is still
embedded as written, entered from a given initial path.  Fetching and
scraping one page is summed up by the environment as a duration — the
wall-clock time the fetch takes; parsing and yielding are instantaneous —
and either an exception (`RequestError`, `Timeout`, or the `ParseError`
from `Scraper(response.text)`) or the page's item nodes and next-page
link.  The k-th iteration's fetch consumes the k-th environment entry; an
exhausted environment fails like the network would. -/

structure Page where
  items : List TorrentData
  next : Option String
deriving Repr

structure FetchOutcome where
  duration : Int
  result : Except PyError Page
deriving Repr

/-- Observables of one run of the loop: the `timeout=` argument passed
to each issued fetch in order (`none` when no deadline was given), the
records yielded, and how the run ended. -/
structure SearchTrace where
  fetchArgs : List (Option Int)
  yielded : List Torrent
  outcome : Except PyError Unit
deriving Repr

/-- Modelled from the spec: `scraper.select_elements(selector, limit)`
returns up to `limit` item nodes in document order, all of them when the
limit is falsy — `None` or `0` (the scraper package is not among the
embedded sources). -/
def selectElements (lim : Option Int) (xs : List TorrentData) : List TorrentData :=
  match lim with
  | none => xs
  | some n => if n = 0 then xs else xs.take n.toNat

/-- Embeds line 105, `remaining -= len(items)`: when `remaining` is
`None` — which happens exactly when the `limit` parameter kept its
default `None` — the subtraction raises `TypeError`. -/
def pySubLen (remaining : Option Int) (n : Nat) : Except PyError (Option Int) :=
  match remaining with
  | none => .error (.typeError "unsupported operand type(s) for -=: NoneType and int")
  | some r => .ok (some (r - (n : Int)))

/-- Truthiness of the `path` value in the loop condition of line 78:
`None` and the empty string are falsy. -/
def pathTruthy : Option String → Bool
  | none => false
  | some s => !(s = "")

/-- Truthiness of the `limit` parameter in `not limit` (line 78): falsy
when `None` or `0`. -/
def limitTruthy : Option Int → Bool
  | none => false
  | some n => !(n = 0)

/-- Embeds the loop of `TorrentProvider.search` (torrentprovider.py lines
74-107): while the path is truthy and (`not limit` or `remaining > 0`),
recompute `current_timeout = timeout - elapsed` (lines 79-83), issue the
fetch with it, scrape the page, yield the constructible records among up
to `remaining` item nodes, run `remaining -= len(items)`, and follow the
next-page link. -/
def searchLoopGo (limit : Option Int) (timeout : Option Int) :
    List FetchOutcome → Option String → Option Int → Int →
    List (Option Int) → List Torrent → SearchTrace
  | pages, path, remaining, elapsed, accF, accY =>
    if pathTruthy path = true ∧ (limitTruthy limit = false ∨ 0 < remaining.getD 0) then
      let currentTimeout : Option Int := timeout.map (fun t => t - elapsed)
      match pages with
      | [] => ⟨accF ++ [currentTimeout], accY, .error (.requestError "no response")⟩
      | f :: rest =>
        match f.result with
        | .error e => ⟨accF ++ [currentTimeout], accY, .error e⟩
        | .ok page =>
          let items := selectElements remaining page.items
          let newYields := items.filterMap constructTorrent
          match pySubLen remaining items.length with
          | .error e => ⟨accF ++ [currentTimeout], accY ++ newYields, .error e⟩
          | .ok remaining2 =>
            searchLoopGo limit timeout rest page.next remaining2
              (elapsed + f.duration) (accF ++ [currentTimeout]) (accY ++ newYields)
    else
      ⟨accF, accY, .ok ()⟩

/-- One run of the pagination loop from its initial path: `remaining`
starts as `limit` (line 74) and the clock at the caller's start time. -/
def searchLoop (limit : Option Int) (timeout : Option Int)
    (pages : List FetchOutcome) (path0 : Option String) : SearchTrace :=
  searchLoopGo limit timeout pages path0 limit 0 [] []

def sumDur (l : List FetchOutcome) : Int :=
  (l.map FetchOutcome.duration).sum

theorem searchLoopGo_fetchArgs_prefix (limit timeout : Option Int) :
    ∀ (pages : List FetchOutcome) (path : Option String) (remaining : Option Int)
      (elapsed : Int) (accF : List (Option Int)) (accY : List Torrent),
      ∃ s, (searchLoopGo limit timeout pages path remaining elapsed accF accY).fetchArgs
        = accF ++ s := by
  intro pages
  induction pages with
  | nil =>
    intro path remaining elapsed accF accY
    rw [searchLoopGo]
    by_cases hcond : pathTruthy path = true ∧
        (limitTruthy limit = false ∨ 0 < remaining.getD 0)
    · rw [if_pos hcond]
      exact ⟨_, rfl⟩
    · rw [if_neg hcond]
      exact ⟨[], (List.append_nil accF).symm⟩
  | cons f rest ih =>
    intro path remaining elapsed accF accY
    obtain ⟨dur, fres⟩ := f
    rw [searchLoopGo]
    by_cases hcond : pathTruthy path = true ∧
        (limitTruthy limit = false ∨ 0 < remaining.getD 0)
    · rw [if_pos hcond]
      cases fres with
      | error e => exact ⟨_, rfl⟩
      | ok page =>
        cases remaining with
        | none => exact ⟨_, rfl⟩
        | some r =>
          simp only
          obtain ⟨s, hs⟩ := ih page.next
            (some (r - ((selectElements (some r) page.items).length : Int)))
            (elapsed + dur) (accF ++ [timeout.map (fun t => t - elapsed)])
            (accY ++ (selectElements (some r) page.items).filterMap constructTorrent)
          rw [pySubLen]
          rw [hs, List.append_assoc]
          exact ⟨_, rfl⟩
    · rw [if_neg hcond]
      exact ⟨[], (List.append_nil accF).symm⟩

theorem searchLoopGo_fetchArgs_getq (limit : Option Int) (t : Int) :
    ∀ (pages : List FetchOutcome) (path : Option String) (remaining : Option Int)
      (elapsed : Int) (accF : List (Option Int)) (accY : List Torrent) (k : Nat),
      accF.length ≤ k →
      k < (searchLoopGo limit (some t) pages path remaining elapsed accF accY).fetchArgs.length →
      (searchLoopGo limit (some t) pages path remaining elapsed accF accY).fetchArgs[k]? =
        some (some (t - (elapsed + sumDur (pages.take (k - accF.length))))) := by
  intro pages
  induction pages with
  | nil =>
    intro path remaining elapsed accF accY k hge hk
    rw [searchLoopGo] at hk ⊢
    by_cases hcond : pathTruthy path = true ∧
        (limitTruthy limit = false ∨ 0 < remaining.getD 0)
    · rw [if_pos hcond] at hk ⊢
      simp only [Option.map] at hk ⊢
      simp only [List.length_append, List.length_singleton] at hk
      have hkeq : k = accF.length := by omega
      subst hkeq
      rw [List.getElem?_append_right (le_refl _)]
      simp [sumDur]
    · rw [if_neg hcond] at hk
      simp only at hk
      exact absurd hk (by omega)
  | cons f rest ih =>
    intro path remaining elapsed accF accY k hge hk
    obtain ⟨dur, fres⟩ := f
    rw [searchLoopGo] at hk ⊢
    by_cases hcond : pathTruthy path = true ∧
        (limitTruthy limit = false ∨ 0 < remaining.getD 0)
    · rw [if_pos hcond] at hk ⊢
      simp only [Option.map] at hk ⊢
      cases fres with
      | error e =>
        simp only [List.length_append, List.length_singleton] at hk
        have hkeq : k = accF.length := by omega
        subst hkeq
        rw [List.getElem?_append_right (le_refl _)]
        simp [sumDur]
      | ok page =>
        cases remaining with
        | none =>
          simp only [pySubLen] at hk ⊢
          simp only [List.length_append, List.length_singleton] at hk
          have hkeq : k = accF.length := by omega
          subst hkeq
          rw [List.getElem?_append_right (le_refl _)]
          simp [sumDur]
        | some r =>
          simp only [pySubLen] at hk ⊢
          by_cases hk2 : accF.length + 1 ≤ k
          · have hrec := ih page.next
              (some (r - ((selectElements (some r) page.items).length : Int)))
              (elapsed + dur) (accF ++ [some (t - elapsed)])
              (accY ++ (selectElements (some r) page.items).filterMap constructTorrent)
              k (by simpa using hk2) hk
            rw [hrec]
            have hm : ∃ m, k - accF.length = m + 1 := ⟨k - accF.length - 1, by omega⟩
            obtain ⟨m, hm⟩ := hm
            rw [hm, List.take_succ_cons]
            have hm2 : k - (accF ++ [some (t - elapsed)]).length = m := by
              simp only [List.length_append, List.length_singleton]
              omega
            rw [hm2]
            simp only [sumDur, List.map_cons, List.sum_cons]
            congr 2
            ring
          · have hkeq : k = accF.length := by omega
            subst hkeq
            obtain ⟨s, hs⟩ := searchLoopGo_fetchArgs_prefix limit (some t) rest page.next
              (some (r - ((selectElements (some r) page.items).length : Int)))
              (elapsed + dur) (accF ++ [some (t - elapsed)])
              (accY ++ (selectElements (some r) page.items).filterMap constructTorrent)
            rw [hs, List.append_assoc, List.getElem?_append_right (le_refl _)]
            simp [sumDur]
    · rw [if_neg hcond] at hk
      simp only at hk
      exact absurd hk (by omega)

def c6pages : List FetchOutcome :=
  [⟨200, .ok ⟨[], some "p2"⟩⟩, ⟨100, .ok ⟨[], none⟩⟩]

/-- C6 (amended): before each page fetch the elapsed time is recomputed
against the caller-supplied deadline and the remaining time is passed as
that fetch's request timeout — the k-th fetch of a run carries exactly
the deadline minus the durations of the fetches before it.  The loop
performs no minimal-threshold stop (see the counterexample); the only
threshold check, remaining ≤ 0.01, happens once per provider in the
orchestrator task before the provider search is dispatched
(searchengine.py line 116, embedded in `searchTask`). -/
theorem claimC6 (limit : Option Int) (t : Int) (pages : List FetchOutcome)
    (path0 : Option String) (k : Nat)
    (hk : k < (searchLoop limit (some t) pages path0).fetchArgs.length) :
    (searchLoop limit (some t) pages path0).fetchArgs[k]? =
      some (some (t - sumDur (pages.take k))) := by
  have h := searchLoopGo_fetchArgs_getq limit t pages path0 limit 0 [] [] k
    (by simp) (by simpa [searchLoop] using hk)
  simpa [searchLoop] using h

/-- Witness for C6 at the first fetch of a concrete run. -/
theorem claimC6_witness :
    (searchLoop (some 0) (some 100) c6pages (some "p1")).fetchArgs[0]? =
      some (some (100 - sumDur (c6pages.take 0))) :=
  claimC6 (some 0) 100 c6pages (some "p1") 0 (by decide)

/-- Counterexample to C6 as stated: with a deadline of 1 s and a first
fetch that takes 2 s, the loop does not stop — the second fetch is
issued with a remaining budget of −1 s.  No remaining-time threshold is
checked anywhere in the loop of torrentprovider.py lines 78-107. -/
theorem claimC6_counterexample :
    (searchLoop (some 0) (some 100) c6pages (some "p1")).fetchArgs =
      [some 100, some (-100)] ∧ (-100 : Int) < 0 :=
  ⟨rfl, by decide⟩

def c7itemA : TorrentData := ⟨some "Item1", some "magnet:a", none, 3⟩

def c7itemBad : TorrentData := ⟨none, none, none, 0⟩

def c7itemB : TorrentData := ⟨some "Item2", none, some "/t/2", 5⟩

def c7pages : List FetchOutcome :=
  [⟨10, .ok ⟨[c7itemA], some "p2"⟩⟩, ⟨10, .ok ⟨[], none⟩⟩]

def c7pagesB : List FetchOutcome :=
  [⟨10, .ok ⟨[c7itemA, c7itemBad, c7itemB], some "p2"⟩⟩, ⟨10, .ok ⟨[c7itemA], none⟩⟩]

/-- C7 (the code contradicts it for the default `limit=None`): with an
integer limit the loop behaves as claimed — the second conjunct runs
`limit=3` on a page of three item nodes (one of which fails record
construction and is skipped without aborting the page): the quota drops
by 3 — the node count, not the 2 valid records — so the loop stops
despite an available next page.  But with `limit=None`, its declared
default, line 105 `remaining -= len(items)` subtracts an int from `None`
and raises `TypeError` after the first page's yields, aborting pagination
although a next-page path is available (first conjunct). -/
theorem claimC7 :
    searchLoop none none c7pages (some "p1") =
      ⟨[none], [⟨"Item1", 3, none⟩],
        .error (.typeError "unsupported operand type(s) for -=: NoneType and int")⟩ ∧
    searchLoop (some 3) none c7pagesB (some "p1") =
      ⟨[none], [⟨"Item1", 3, none⟩, ⟨"Item2", 5, some "/t/2"⟩], .ok ()⟩ :=
  ⟨rfl, rfl⟩

/-- Embeds `fetch_details_data` (torrentprovider.py lines 109-142): a
falsy `info_url` — missing or empty — returns the empty dict at once;
otherwise one fetch of the info page happens, whose fetch/scrape/extract
outcome the environment supplies (requests and the scraper package are
not among the embedded sources).  The first component counts the fetches
performed. -/
def fetchDetailsData (t : Torrent)
    (env : Except PyError (List (String × String))) :
    Nat × Except PyError (List (String × String)) :=
  match t.infoUrl with
  | none => (0, .ok [])
  | some p => if p = "" then (0, .ok []) else (1, env)

/-- C9: a record with an absent or empty detail-page url makes
`fetch_details_data` return an empty dict, with no fetch and no error,
whatever the network would have answered. -/
theorem claimC9 (t : Torrent) (env : Except PyError (List (String × String)))
    (h : t.infoUrl = none ∨ t.infoUrl = some "") :
    fetchDetailsData t env = (0, .ok []) := by
  rcases h with h | h
  · rw [fetchDetailsData, h]
  · rw [fetchDetailsData, h]
    simp

/-- Witness for C9: a url-less record against a failing network. -/
theorem claimC9_witness :
    fetchDetailsData ⟨"X", 1, none⟩ (.error (.requestError "offline")) = (0, .ok []) :=
  claimC9 ⟨"X", 1, none⟩ (.error (.requestError "offline")) (Or.inl rfl)

def noMapCfg : ProviderCfg := ⟨"alpha", "/search/{query}", [], none⟩

def mapCfg : ProviderCfg :=
  ⟨"beta", "/{category}/{query}", [("movies", "/m"), ("tv", "/t")], none⟩

/-- C2 (the code contradicts its first clause): with a category map the
behaviour is as claimed — a mapped category resolves to its fragment and
an unmapped one raises `NotSupportedError` (third to fifth conjuncts).
But with `category=None` and no map configured, line 213's
`category == "all"` is a discarded comparison rather than an assignment,
so the `None` stays and `_get_category_path` raises `NotSupportedError`
instead of resolving to nothing (first conjunct; the literal `"all"`
still works, second conjunct).  And no call ever uses the template
unmodified: line 204 of `_format_search_path` reads the local `path`
before assignment, raising `UnboundLocalError` (last conjunct). -/
theorem claimC2 :
    getCategoryPath noMapCfg none =
      .error (.notSupportedError "alpha: category None is not supported.") ∧
    getCategoryPath noMapCfg (some "all") = .ok none ∧
    getCategoryPath mapCfg (some "movies") = .ok (some "/m") ∧
    getCategoryPath mapCfg (some "zzz") =
      .error (.notSupportedError "beta: category zzz is not supported.") ∧
    getCategoryPath noMapCfg (some "tv") =
      .error (.notSupportedError "alpha: category tv is not supported.") ∧
    formatSearchPath noMapCfg "doom patrol" (some "all") =
      .error (.unboundLocalError "path") :=
  ⟨rfl, rfl, rfl, rfl, rfl, rfl⟩
